import Mathlib

/-!
Verification development for the nebula overlay-network node (SpiralP/nebula).

The Go sources are embedded shallowly:
- `cert/ca.go` (CA pool construction, blocklist) in namespace `Cert`;
- `interface.go` (firewall reload, send_recv_error policy, TUN read loop)
  in namespace `Iface`;
- the AEAD tunnel ciphers (AES-128-GCM, ChaCha20-Poly1305), whose Go source
  is outside the provided tree, modelled from the specification in
  namespace `Crypto`;
- `render.go` (host map rendering) in namespace `Render`.

Go machine integers are embedded as `Nat` with explicit `% 2^w` where
overflow matters; fallible Go functions return `Option`/`Except`-shaped
results; Go maps are embedded as association lists whose list order stands
for the (unspecified) map iteration order.
-/

namespace Nebula

namespace Cert

/-- Model of a parsed v1 nebula certificate as consumed by `cert/ca.go`.
The parser, signature checker, fingerprint and expiry computations live in
`cert.go`, which is outside the provided sources; `ca.go` only branches on
their outcomes, so those outcomes are carried as fields:
`isCA` is `c.Details.IsCA`, `checkSignatureSelf` is the result of
`c.CheckSignature(c.Details.PublicKey)`, `sha256Sum` is the result of
`c.Sha256Sum()` (`none` models the error case), and `expiredNow` is the
result of `c.Expired(time.Now())` at the moment `AddCACertificate` runs. -/
structure NebulaCertificate where
  name : String
  isCA : Bool
  checkSignatureSelf : Bool
  sha256Sum : Option String
  expiredNow : Bool
deriving DecidableEq, Repr

/-- Outcomes of `UnmarshalNebulaCertificateFromPEM` (defined in `cert.go`,
outside the provided sources) for one PEM block: `unsupportedV2` is the
`ErrInvalidPEMCertificateUnsupported` error produced for the banner
`NEBULA CERTIFICATE V2`; `invalidPEM` covers a missing or malformed PEM
block (including empty input); `otherErr` covers the remaining
unmarshalling errors. -/
inductive ParseError where
  | invalidPEM
  | unsupportedV2
  | otherErr (msg : String)
deriving DecidableEq, Repr

/-- One PEM block of the input byte sequence, abstracted by what
`UnmarshalNebulaCertificateFromPEM` returns for it: either a parse error or
a parsed certificate. The input bytes of `NewCAPoolFromBytes` are embedded
as the list of successive blocks. -/
inductive PemBlock where
  | failed (e : ParseError)
  | parsed (c : NebulaCertificate)
deriving DecidableEq, Repr

/-- Errors returned by `AddCACertificate` (`cert/ca.go`): a wrapped parse
error, `ErrNotCA`, `ErrNotSelfSigned`, the fingerprint failure, or
`ErrExpired`, each wrapping the certificate name as in the Go `fmt.Errorf`
calls. -/
inductive AddError where
  | parseFailed (e : ParseError)
  | errNotCA (name : String)
  | errNotSelfSigned (name : String)
  | shaFailed (name : String)
  | errExpired (name : String)
deriving DecidableEq, Repr

/-- Whether `NewCAPoolFromBytes` treats an `AddCACertificate` error as a
warning: `errors.Is(err, ErrExpired)` or
`errors.Is(err, ErrInvalidPEMCertificateUnsupported)`. -/
def AddError.isWarning : AddError → Bool
  | .errExpired _ => true
  | .parseFailed .unsupportedV2 => true
  | _ => false

/-- The CA pool of `cert/ca.go`: `CAs` maps SHA-256 fingerprints to
certificates, `certBlocklist` is the set of blocklisted fingerprints. Both
Go maps are embedded as lists; `CAs` keeps at most one entry per key. -/
structure NebulaCAPool where
  CAs : List (String × NebulaCertificate)
  certBlocklist : List String
deriving DecidableEq, Repr

/-- The empty pool built by `NewCAPool`. -/
def NewCAPool : NebulaCAPool := { CAs := [], certBlocklist := [] }

/-- Go map assignment `m[k] = v`: overwrite the entry for `k` if present,
otherwise append it. -/
def mapInsert (m : List (String × NebulaCertificate)) (k : String)
    (v : NebulaCertificate) : List (String × NebulaCertificate) :=
  if m.any (fun p => p.1 = k) then
    m.map (fun p => if p.1 = k then (k, v) else p)
  else
    m ++ [(k, v)]

/-- `AddCACertificate` (`cert/ca.go` lines 65-90) applied to the first PEM
block of its input. Returns the updated pool and the error (if any); the
remaining input bytes of the Go return are the remaining blocks, handled by
the caller. -/
def addCACertificate (ncp : NebulaCAPool) (b : PemBlock) :
    NebulaCAPool × Option AddError :=
  match b with
  | .failed e => (ncp, some (.parseFailed e))
  | .parsed c =>
    if !c.isCA then
      (ncp, some (.errNotCA c.name))
    else if !c.checkSignatureSelf then
      (ncp, some (.errNotSelfSigned c.name))
    else
      match c.sha256Sum with
      | none => (ncp, some (.shaFailed c.name))
      | some sum =>
        let ncp2 : NebulaCAPool := { ncp with CAs := mapInsert ncp.CAs sum c }
        if c.expiredNow then (ncp2, some (.errExpired c.name))
        else (ncp2, none)

/-- Result of `NewCAPoolFromBytes`: a fatal unmarshalling or verification
error (pool is nil), the `no valid CA certificates present` error (pool is
nil), or success; in each case together with the accumulated warnings. -/
inductive CAPoolResult where
  | fatal (warnings : List AddError) (e : AddError)
  | noValidCAs (warnings : List AddError)
  | ok (pool : NebulaCAPool) (warnings : List AddError)
deriving DecidableEq, Repr

/-- The loop body of `NewCAPoolFromBytes` (`cert/ca.go` lines 37-53): call
`AddCACertificate` on the remaining bytes, record `ErrExpired` and
`ErrInvalidPEMCertificateUnsupported` as warnings, return any other error
fatally, count good certificates, and stop once the remaining bytes are
exhausted. The Go loop runs at least once, so empty input reaches the
unmarshaller and fails with a parse error. -/
def addLoop (ncp : NebulaCAPool) (warnings : List AddError) (good : Nat) :
    List PemBlock →
    Except (List AddError × AddError) (NebulaCAPool × List AddError × Nat)
  | [] => .error (warnings, .parseFailed .invalidPEM)
  | b :: rest =>
    match addCACertificate ncp b with
    | (ncp2, some e) =>
      if e.isWarning then
        if rest.isEmpty then .ok (ncp2, warnings ++ [e], good)
        else addLoop ncp2 (warnings ++ [e]) good rest
      else .error (warnings, e)
    | (ncp2, none) =>
      if rest.isEmpty then .ok (ncp2, warnings, good + 1)
      else addLoop ncp2 warnings (good + 1) rest

/-- `NewCAPoolFromBytes` (`cert/ca.go` lines 31-60) over the block list of
its input bytes. -/
def newCAPoolFromBytes (blocks : List PemBlock) : CAPoolResult :=
  match addLoop NewCAPool [] 0 blocks with
  | .error (ws, e) => .fatal ws e
  | .ok (pool, ws, good) =>
    if good = 0 then .noValidCAs ws else .ok pool ws

/-- `BlocklistFingerprint` (`cert/ca.go` lines 93-95): add a fingerprint to
the blocklist set. -/
def blocklistFingerprint (ncp : NebulaCAPool) (f : String) : NebulaCAPool :=
  { ncp with certBlocklist :=
      if ncp.certBlocklist.contains f then ncp.certBlocklist
      else ncp.certBlocklist ++ [f] }

/-- `ResetCertBlocklist` (`cert/ca.go` lines 98-100): forget every
blocklisted fingerprint. -/
def resetCertBlocklist (ncp : NebulaCAPool) : NebulaCAPool :=
  { ncp with certBlocklist := [] }

/-- `IsBlocklisted` (`cert/ca.go` lines 104-120): true when the fingerprint
fails to generate or is present in the blocklist. -/
def isBlocklisted (ncp : NebulaCAPool) (c : NebulaCertificate) : Bool :=
  match c.sha256Sum with
  | none => true
  | some h => ncp.certBlocklist.contains h

/-- Modelled from the spec: the blocklist step of `NebulaCertificate.Verify`
(defined in `cert.go`, which is outside the provided sources) rejects a
blocklisted certificate with the error text
`certificate is in the block list`, as stated by the spec scenario and
asserted by `TestNebulaCertificate_Verify` in `cert/cert_test.go`. Only
this step of `Verify` is modelled; `none` stands for passing the check. -/
def verifyBlocklistStep (ncp : NebulaCAPool) (c : NebulaCertificate) :
    Option String :=
  if isBlocklisted ncp c then some "certificate is in the block list"
  else none

/-- A block that `AddCACertificate` accepts with no error: it parses, is a
CA, is self-signed, its fingerprint computes, and it is not expired. -/
def PemBlock.isGood : PemBlock → Bool
  | .parsed c =>
    c.isCA && c.checkSignatureSelf && c.sha256Sum.isSome && !c.expiredNow
  | .failed _ => false

/-- A block whose `AddCACertificate` error is warning-class: an expired
(otherwise valid) CA certificate, or an unsupported-version PEM block. -/
def PemBlock.isWarnBlock : PemBlock → Bool
  | .parsed c =>
    c.isCA && c.checkSignatureSelf && c.sha256Sum.isSome && c.expiredNow
  | .failed e => e = .unsupportedV2

/-- The effect of `AddCACertificate` on the `CAs` map alone: a certificate
that is a self-signed CA and whose fingerprint computes is inserted
(whether or not it is expired); every other block leaves the map
unchanged. -/
def blockInsert (m : List (String × NebulaCertificate)) :
    PemBlock → List (String × NebulaCertificate)
  | .failed _ => m
  | .parsed c =>
    if c.isCA && c.checkSignatureSelf then
      match c.sha256Sum with
      | some sum => mapInsert m sum c
      | none => m
    else m

/-- The error `AddCACertificate` reports for a block; it does not depend on
the pool. -/
def blockError : PemBlock → Option AddError
  | .failed e => some (.parseFailed e)
  | .parsed c =>
    if !c.isCA then some (.errNotCA c.name)
    else if !c.checkSignatureSelf then some (.errNotSelfSigned c.name)
    else
      match c.sha256Sum with
      | none => some (.shaFailed c.name)
      | some _ =>
        if c.expiredNow then some (.errExpired c.name) else none

theorem addCACertificate_eq (ncp : NebulaCAPool) (b : PemBlock) :
    addCACertificate ncp b =
      ({ CAs := blockInsert ncp.CAs b, certBlocklist := ncp.certBlocklist },
        blockError b) := by
  cases b with
  | failed e => rfl
  | parsed c =>
    cases hca : c.isCA <;> cases hsig : c.checkSignatureSelf <;>
      cases hsha : c.sha256Sum <;> cases hexp : c.expiredNow <;>
      simp [addCACertificate, blockInsert, blockError, hca, hsig, hsha, hexp]

theorem blockError_none_iff (b : PemBlock) :
    blockError b = none ↔ b.isGood = true := by
  cases b with
  | failed e => simp [blockError, PemBlock.isGood]
  | parsed c =>
    cases hca : c.isCA <;> cases hsig : c.checkSignatureSelf <;>
      cases hsha : c.sha256Sum <;> cases hexp : c.expiredNow <;>
      simp [blockError, PemBlock.isGood, hca, hsig, hsha, hexp]

theorem blockError_warning_iff (b : PemBlock) :
    (∃ e, blockError b = some e ∧ e.isWarning = true) ↔
      b.isWarnBlock = true := by
  cases b with
  | failed e =>
    cases e <;> simp [blockError, PemBlock.isWarnBlock, AddError.isWarning]
  | parsed c =>
    cases hca : c.isCA <;> cases hsig : c.checkSignatureSelf <;>
      cases hsha : c.sha256Sum <;> cases hexp : c.expiredNow <;>
      simp [blockError, PemBlock.isWarnBlock, AddError.isWarning,
        hca, hsig, hsha, hexp]

theorem isWarnBlock_not_isGood (b : PemBlock) (h : b.isWarnBlock = true) :
    b.isGood = false := by
  cases b with
  | failed e => simp [PemBlock.isGood]
  | parsed c =>
    simp only [PemBlock.isWarnBlock, Bool.and_eq_true] at h
    simp [PemBlock.isGood, h.2]

theorem addLoop_ok_good (blocks : List PemBlock) :
    ∀ ncp ws good pool w g,
      addLoop ncp ws good blocks = .ok (pool, w, g) →
      good ≤ g ∧ (g = good → ∀ b ∈ blocks, b.isWarnBlock = true) := by
  induction blocks with
  | nil => intro ncp ws good pool w g h; simp [addLoop] at h
  | cons b rest ih =>
    intro ncp ws good pool w g h
    rw [addLoop, addCACertificate_eq] at h
    cases hbe : blockError b with
    | some e =>
      simp only [hbe] at h
      cases hw : e.isWarning with
      | false => simp only [hw, Bool.false_eq_true, if_false] at h; simp at h
      | true =>
        simp only [hw, if_true] at h
        have hwb : b.isWarnBlock = true :=
          (blockError_warning_iff b).mp ⟨e, hbe, hw⟩
        cases rest with
        | nil =>
          simp only [List.isEmpty_nil, if_true, Except.ok.injEq,
            Prod.mk.injEq] at h
          refine ⟨le_of_eq h.2.2, fun _ b' hb' => ?_⟩
          rcases List.mem_singleton.mp hb' with rfl
          exact hwb
        | cons b2 rest2 =>
          simp only [List.isEmpty_cons, Bool.false_eq_true, if_false] at h
          obtain ⟨h1, h2⟩ := ih _ _ _ _ _ _ h
          refine ⟨h1, fun hg b' hb' => ?_⟩
          rcases List.mem_cons.mp hb' with rfl | hmem
          · exact hwb
          · exact h2 hg b' hmem
    | none =>
      simp only [hbe] at h
      cases rest with
      | nil =>
        simp only [List.isEmpty_nil, if_true, Except.ok.injEq,
          Prod.mk.injEq] at h
        exact ⟨h.2.2 ▸ Nat.le_succ good, fun hg => by omega⟩
      | cons b2 rest2 =>
        simp only [List.isEmpty_cons, Bool.false_eq_true, if_false] at h
        obtain ⟨h1, h2⟩ := ih _ _ _ _ _ _ h
        refine ⟨le_trans (Nat.le_succ good) h1, fun hg => ?_⟩
        omega

theorem addLoop_warnOrGood (blocks : List PemBlock) :
    ∀ ncp ws good,
      blocks ≠ [] →
      (∀ b ∈ blocks, b.isWarnBlock = true ∨ b.isGood = true) →
      addLoop ncp ws good blocks =
        .ok ({ CAs := blocks.foldl blockInsert ncp.CAs,
               certBlocklist := ncp.certBlocklist },
             ws ++ blocks.filterMap blockError,
             good + blocks.countP (fun b => b.isGood)) := by
  induction blocks with
  | nil => intro ncp ws good hne _; exact absurd rfl hne
  | cons b rest ih =>
    intro ncp ws good _ hall
    rw [addLoop, addCACertificate_eq]
    rcases hall b (List.mem_cons_self b rest) with hwb | hgb
    · obtain ⟨e, hbe, hw⟩ := (blockError_warning_iff b).mpr hwb
      have hng : b.isGood = false := isWarnBlock_not_isGood b hwb
      simp only [hbe, hw, if_true]
      cases rest with
      | nil => simp [hbe, hng, List.countP_cons]
      | cons b2 rest2 =>
        simp only [List.isEmpty_cons, Bool.false_eq_true, if_false]
        rw [ih _ _ _ (by simp)
          (fun b' hb' => hall b' (List.mem_cons_of_mem _ hb'))]
        simp [hbe, hng, List.countP_cons, List.append_assoc]
    · have hbe : blockError b = none := (blockError_none_iff b).mpr hgb
      simp only [hbe]
      cases rest with
      | nil => simp [hbe, hgb, List.countP_cons]
      | cons b2 rest2 =>
        simp only [List.isEmpty_cons, Bool.false_eq_true, if_false]
        rw [ih _ _ _ (by simp)
          (fun b' hb' => hall b' (List.mem_cons_of_mem _ hb'))]
        simp only [Except.ok.injEq, Prod.mk.injEq]
        refine ⟨rfl, ?_, ?_⟩
        · simp [hbe]
        · simp [List.countP_cons, hgb]; omega

/-- Whether a `NewCAPoolFromBytes` result is the error
`no valid CA certificates present`. -/
def CAPoolResult.isNoValid : CAPoolResult → Bool
  | .noValidCAs _ => true
  | _ => false

theorem newCAPoolFromBytes_noValid_iff (blocks : List PemBlock) :
    (newCAPoolFromBytes blocks).isNoValid = true ↔
      blocks ≠ [] ∧ ∀ b ∈ blocks, b.isWarnBlock = true := by
  constructor
  · intro h
    unfold newCAPoolFromBytes at h
    cases hLoop : addLoop NewCAPool [] 0 blocks with
    | error p => rw [hLoop] at h; simp [CAPoolResult.isNoValid] at h
    | ok t =>
      obtain ⟨pool, w, g⟩ := t
      rw [hLoop] at h
      by_cases hg : g = 0
      · subst hg
        obtain ⟨-, h2⟩ := addLoop_ok_good blocks _ _ _ _ _ _ hLoop
        refine ⟨?_, h2 rfl⟩
        rintro rfl
        simp [addLoop] at hLoop
      · simp [hg, CAPoolResult.isNoValid] at h
  · rintro ⟨hne, hall⟩
    have hLoop := addLoop_warnOrGood blocks NewCAPool [] 0 hne
      (fun b hb => Or.inl (hall b hb))
    unfold newCAPoolFromBytes
    rw [hLoop]
    have hcnt : blocks.countP (fun b => b.isGood) = 0 := by
      rw [List.countP_eq_zero]
      intro b hb
      simp [isWarnBlock_not_isGood b (hall b hb)]
    simp [hcnt, CAPoolResult.isNoValid]

theorem foldl_blockInsert_filter (blocks : List PemBlock) :
    ∀ m, (∀ b ∈ blocks, b = .failed .unsupportedV2 ∨ b.isGood = true) →
      blocks.foldl blockInsert m =
        (blocks.filter (fun b => b.isGood)).foldl blockInsert m := by
  induction blocks with
  | nil => intro m _; rfl
  | cons b rest ih =>
    intro m hall
    have hrest := fun b' hb' => hall b' (List.mem_cons_of_mem _ hb')
    rcases hall b (List.mem_cons_self b rest) with rfl | hg
    · simpa [blockInsert, List.filter_cons, PemBlock.isGood] using ih m hrest
    · simpa [List.filter_cons, hg] using ih (blockInsert m b) hrest

/-- Sample certificate whose first PEM block parses but is not a CA. -/
def sampleNotCA : NebulaCertificate :=
  { name := "n1", isCA := false, checkSignatureSelf := true,
    sha256Sum := some "f1", expiredNow := false }

/-- Sample CA certificate whose signature does not verify against its own
public key. -/
def sampleNotSelfSigned : NebulaCertificate :=
  { name := "n2", isCA := true, checkSignatureSelf := false,
    sha256Sum := some "f2", expiredNow := false }

/-- Sample expired, otherwise valid, self-signed CA certificate. -/
def sampleExpiredCA : NebulaCertificate :=
  { name := "expired", isCA := true, checkSignatureSelf := true,
    sha256Sum := some "fe", expiredNow := true }

/-- Sample valid (unexpired, self-signed) CA certificate. -/
def sampleGoodCA : NebulaCertificate :=
  { name := "root", isCA := true, checkSignatureSelf := true,
    sha256Sum := some "fg", expiredNow := false }

/-- C4: when the first PEM block parses to a certificate that is not a CA,
`AddCACertificate` returns an error wrapping `ErrNotCA` and leaves the pool
unchanged; when it parses to a CA certificate whose signature does not
verify against its own public key, it returns an error wrapping
`ErrNotSelfSigned` and leaves the pool unchanged. In all cases the Lean
embedding `addCACertificate` is a total function into a plain pair, so the
Go function returns errors to the caller and never panics. -/
theorem addCACertificate_notCA_notSelfSigned
    (ncp : NebulaCAPool) (c : NebulaCertificate) :
    (c.isCA = false →
      addCACertificate ncp (.parsed c) = (ncp, some (.errNotCA c.name))) ∧
    (c.isCA = true → c.checkSignatureSelf = false →
      addCACertificate ncp (.parsed c) =
        (ncp, some (.errNotSelfSigned c.name))) := by
  constructor
  · intro h; simp [addCACertificate, h]
  · intro h1 h2; simp [addCACertificate, h1, h2]

/-- Witness for C4 at two concrete certificates. -/
theorem addCACertificate_notCA_notSelfSigned_witness :
    addCACertificate NewCAPool (.parsed sampleNotCA) =
      (NewCAPool, some (.errNotCA "n1")) ∧
    addCACertificate NewCAPool (.parsed sampleNotSelfSigned) =
      (NewCAPool, some (.errNotSelfSigned "n2")) :=
  ⟨(addCACertificate_notCA_notSelfSigned NewCAPool sampleNotCA).1 rfl,
   (addCACertificate_notCA_notSelfSigned NewCAPool sampleNotSelfSigned).2
     rfl rfl⟩

/-- C5: after `BlocklistFingerprint f`, `IsBlocklisted` returns true for
every certificate whose SHA-256 fingerprint equals `f`, and the
handshake-level verification rejects such a certificate with the error
text `certificate is in the block list`; after `ResetCertBlocklist`,
`IsBlocklisted` returns false for every certificate whose fingerprint is
computable. -/
theorem blocklistFingerprint_isBlocklisted_reset :
    (∀ (ncp : NebulaCAPool) (f : String) (c : NebulaCertificate),
        c.sha256Sum = some f →
        isBlocklisted (blocklistFingerprint ncp f) c = true ∧
        verifyBlocklistStep (blocklistFingerprint ncp f) c =
          some "certificate is in the block list") ∧
    (∀ (ncp : NebulaCAPool) (c : NebulaCertificate) (h : String),
        c.sha256Sum = some h →
        isBlocklisted (resetCertBlocklist ncp) c = false) := by
  constructor
  · intro ncp f c hsha
    have hmem : f ∈ (blocklistFingerprint ncp f).certBlocklist := by
      unfold blocklistFingerprint
      by_cases hc : f ∈ ncp.certBlocklist
      · rw [if_pos (by simpa using hc)]; exact hc
      · rw [if_neg (by simpa using hc)]
        exact List.mem_append.mpr (Or.inr (List.mem_singleton.mpr rfl))
    refine ⟨?_, ?_⟩
    · simp [isBlocklisted, hsha, hmem]
    · simp [verifyBlocklistStep, isBlocklisted, hsha, hmem]
  · intro ncp c h hsha
    simp [isBlocklisted, resetCertBlocklist, hsha]

/-- Witness for C5 at a concrete pool and certificate. -/
theorem blocklistFingerprint_isBlocklisted_reset_witness :
    isBlocklisted (blocklistFingerprint NewCAPool "fg") sampleGoodCA = true ∧
    verifyBlocklistStep (blocklistFingerprint NewCAPool "fg") sampleGoodCA =
      some "certificate is in the block list" ∧
    isBlocklisted (resetCertBlocklist (blocklistFingerprint NewCAPool "fg"))
      sampleGoodCA = false :=
  ⟨(blocklistFingerprint_isBlocklisted_reset.1 NewCAPool "fg" sampleGoodCA
      rfl).1,
   (blocklistFingerprint_isBlocklisted_reset.1 NewCAPool "fg" sampleGoodCA
      rfl).2,
   blocklistFingerprint_isBlocklisted_reset.2
     (blocklistFingerprint NewCAPool "fg") sampleGoodCA "fg" rfl⟩

/-- C6: on an input whose PEM blocks are `NEBULA CERTIFICATE V2` blocks and
valid v1 CA certificates, with at least one of each, `NewCAPoolFromBytes`
succeeds (no fatal error): the pool is built by inserting exactly the valid
certificates (the V2 blocks contribute no entry), and the warning list
contains a warning wrapping `ErrInvalidPEMCertificateUnsupported`. -/
theorem newCAPoolFromBytes_v2_tolerated (blocks : List PemBlock)
    (hall : ∀ b ∈ blocks, b = .failed .unsupportedV2 ∨ b.isGood = true)
    (hv2 : PemBlock.failed .unsupportedV2 ∈ blocks)
    (hgood : ∃ b ∈ blocks, b.isGood = true) :
    newCAPoolFromBytes blocks =
      .ok { CAs := (blocks.filter (fun b => b.isGood)).foldl blockInsert [],
            certBlocklist := [] }
        (blocks.filterMap blockError) ∧
    AddError.parseFailed .unsupportedV2 ∈ blocks.filterMap blockError := by
  have hne : blocks ≠ [] := by rintro rfl; simp at hv2
  have hwog : ∀ b ∈ blocks, b.isWarnBlock = true ∨ b.isGood = true := by
    intro b hb
    rcases hall b hb with rfl | hg
    · left; rfl
    · right; exact hg
  have hLoop := addLoop_warnOrGood blocks NewCAPool [] 0 hne hwog
  have hcnt : 0 < blocks.countP (fun b => b.isGood) := by
    rw [List.countP_pos_iff]
    obtain ⟨b, hb, hg⟩ := hgood
    exact ⟨b, hb, by simp [hg]⟩
  constructor
  · unfold newCAPoolFromBytes
    rw [hLoop]
    have hg0 : ¬(0 + blocks.countP (fun b => b.isGood) = 0) := by omega
    simp only [hg0, if_false, List.nil_append]
    have hfold := foldl_blockInsert_filter blocks NewCAPool.CAs hall
    simp only [NewCAPool] at hfold ⊢
    rw [hfold]
  · exact List.mem_filterMap.mpr ⟨_, hv2, rfl⟩

/-- Witness for C6 at a concrete input: one V2 block followed by one valid
CA certificate. -/
theorem newCAPoolFromBytes_v2_tolerated_witness :
    newCAPoolFromBytes
        [PemBlock.failed .unsupportedV2, PemBlock.parsed sampleGoodCA] =
      .ok { CAs := ([PemBlock.failed .unsupportedV2,
                     PemBlock.parsed sampleGoodCA].filter
                      (fun b => b.isGood)).foldl blockInsert [],
            certBlocklist := [] }
        ([PemBlock.failed .unsupportedV2,
          PemBlock.parsed sampleGoodCA].filterMap blockError) ∧
    AddError.parseFailed .unsupportedV2 ∈
      [PemBlock.failed .unsupportedV2,
       PemBlock.parsed sampleGoodCA].filterMap blockError :=
  newCAPoolFromBytes_v2_tolerated _
    (by intro b hb
        rcases List.mem_cons.mp hb with rfl | hb2
        · exact Or.inl rfl
        · rcases List.mem_singleton.mp hb2 with rfl
          exact Or.inr rfl)
    (List.mem_cons_self _ _)
    ⟨PemBlock.parsed sampleGoodCA, by simp, rfl⟩

/-- C8 (amended): an expired CA certificate is inserted into the pool
before `AddCACertificate` returns `ErrExpired`, so it remains present
despite the error; and `NewCAPoolFromBytes` fails with
`no valid CA certificates present` exactly when the input is nonempty and
every PEM block yields a warning-class outcome (an expired self-signed CA
certificate, or an unsupported-version block) — in particular no block
parses as an unexpired self-signed CA and no block produces a fatal
error. -/
theorem addCACertificate_expired_inserted_noValid_iff :
    (∀ (ncp : NebulaCAPool) (c : NebulaCertificate) (sum : String),
        c.isCA = true → c.checkSignatureSelf = true →
        c.sha256Sum = some sum → c.expiredNow = true →
        addCACertificate ncp (.parsed c) =
          ({ ncp with CAs := mapInsert ncp.CAs sum c },
            some (.errExpired c.name))) ∧
    (∀ blocks : List PemBlock,
        (newCAPoolFromBytes blocks).isNoValid = true ↔
          blocks ≠ [] ∧ ∀ b ∈ blocks, b.isWarnBlock = true) := by
  constructor
  · intro ncp c sum h1 h2 h3 h4
    simp [addCACertificate, h1, h2, h3, h4]
  · exact newCAPoolFromBytes_noValid_iff

/-- Counterexample to C8 as stated: the input consisting of a single
parsed non-CA certificate contains no certificate that parses as an
unexpired self-signed CA, yet `NewCAPoolFromBytes` does not fail with
`no valid CA certificates present` — it fails fatally with the wrapped
`ErrNotCA` instead. -/
theorem newCAPoolFromBytes_noValid_claim_false :
    (PemBlock.parsed sampleNotCA).isGood = false ∧
    newCAPoolFromBytes [PemBlock.parsed sampleNotCA] =
      .fatal [] (.errNotCA "n1") ∧
    (newCAPoolFromBytes [PemBlock.parsed sampleNotCA]).isNoValid = false :=
  ⟨rfl, rfl, rfl⟩

/-- Witness for C8 (amended) at a concrete expired CA certificate. -/
theorem addCACertificate_expired_inserted_noValid_iff_witness :
    addCACertificate NewCAPool (.parsed sampleExpiredCA) =
      ({ NewCAPool with CAs := mapInsert NewCAPool.CAs "fe" sampleExpiredCA },
        some (.errExpired "expired")) ∧
    (newCAPoolFromBytes [PemBlock.parsed sampleExpiredCA]).isNoValid = true :=
  ⟨addCACertificate_expired_inserted_noValid_iff.1 NewCAPool sampleExpiredCA
      "fe" rfl rfl rfl rfl,
   (addCACertificate_expired_inserted_noValid_iff.2
      [PemBlock.parsed sampleExpiredCA]).mpr
     ⟨by simp, by
        intro b hb
        rcases List.mem_singleton.mp hb with rfl
        rfl⟩⟩

end Cert

namespace Iface

/-- Modelled from the spec: the entries of the conntrack table
(`Firewall.Conntrack`, defined in `firewall.go`, which is outside the
provided sources). `reloadFirewall` treats the table opaquely — it only
locks it and either carries it over or leaves the fresh one — so its
contents are abstracted as an association of numeric five-tuples to
numeric entry data. -/
abbrev Conntrack := List (Nat × Nat)

/-- Width of the wrapping `rulesVersion` counter. Modelled from the spec:
the `Firewall` struct is defined in `firewall.go`, outside the provided
sources; the spec describes `rules_version` as a monotonic counter that
wraps around to zero, and the upstream field is 16 bits wide. -/
def rulesVersionModulus : Nat := 65536

/-- Modelled from the spec: the slice of the `Firewall` struct
(`firewall.go`, outside the provided sources) that `reloadFirewall` in
`interface.go` reads and writes — the wrapping `rulesVersion`, the
conntrack table, and the rule hashes reported by `GetRuleHashes`. -/
structure Firewall where
  rulesVersion : Nat
  Conntrack : Conntrack
  ruleHashes : String
deriving DecidableEq, Repr

/-- Modelled from the spec: `NewFirewallFromConfig` (outside the provided
sources) builds a firewall from the configuration with a fresh, empty
conntrack table; `rulesVersion` starts at zero and is overwritten by
`reloadFirewall` before install. -/
def NewFirewallFromConfig (hashes : String) : Firewall :=
  { rulesVersion := 0, Conntrack := [], ruleHashes := hashes }

/-- The reload-relevant state of `Interface` (`interface.go`): the
installed firewall plus the other reloadable fields, which a firewall
reload must leave untouched. -/
structure Interface where
  firewall : Firewall
  sendRecvErrorConfig : Nat
  disconnectInvalid : Bool
  closed : Bool
  tryPromoteEvery : Nat
  reQueryEvery : Nat
  reQueryWait : Int
deriving DecidableEq, Repr

/-- Outcome of the configuration step of `reloadFirewall`: either the
`firewall` section did not change, or `NewFirewallFromConfig` failed, or it
produced a fresh firewall with the given rule hashes. -/
inductive FirewallReloadInput where
  | unchanged
  | configError
  | newConfig (hashes : String)
deriving DecidableEq, Repr

/-- `reloadFirewall` (`interface.go` lines 341-378): on an unchanged
section or a config error the interface is left as is; otherwise the new
firewall takes the old `rulesVersion` plus one (wrapping), carries the old
conntrack table over unless the version wrapped to zero (in which case the
fresh empty table of the new firewall is kept, a full flush), and is
installed in the `firewall` field. -/
def reloadFirewall (f : Interface) (input : FirewallReloadInput) :
    Interface :=
  match input with
  | .unchanged => f
  | .configError => f
  | .newConfig hashes =>
    let fw := NewFirewallFromConfig hashes
    let oldFw := f.firewall
    let conntrack := oldFw.Conntrack
    let v := (oldFw.rulesVersion + 1) % rulesVersionModulus
    let fw2 :=
      if v = 0 then { fw with rulesVersion := v }
      else { fw with rulesVersion := v, Conntrack := conntrack }
    { f with firewall := fw2 }

/-- Errors a TUN `Read` can return in `listenIn`: `os.ErrClosed` or any
other error. -/
inductive ReadError where
  | errClosed
  | otherError (msg : String)
deriving DecidableEq, Repr

/-- Result of one TUN `reader.Read` call. -/
inductive ReadResult where
  | ok (n : Nat)
  | err (e : ReadError)
deriving DecidableEq, Repr

/-- What one iteration of the `listenIn` loop does next. -/
inductive LoopStep where
  | processPacket (n : Nat)
  | returnFromLoop
  | exitProcess (code : Nat)
deriving DecidableEq, Repr

/-- One iteration of the `listenIn` loop (`interface.go` lines 304-317):
a successful read flows into `consumeInsidePacket` and the loop continues;
`os.ErrClosed` while the interface has been closed returns from the
goroutine; every other read error logs and calls `os.Exit(2)`. -/
def listenInStep (closed : Bool) (r : ReadResult) : LoopStep :=
  match r with
  | .ok n => .processPacket n
  | .err e =>
    if e = .errClosed && closed then .returnFromLoop
    else .exitProcess 2

/-- Model of `netip.AddrPort` as consumed by `ShouldSendRecvError`: the
code inspects only `ip.Addr().IsPrivate()`, a Go standard-library
predicate, whose outcome is carried as a field. -/
structure AddrPort where
  isPrivate : Bool
deriving DecidableEq, Repr

/-- Constant `sendRecvErrorAlways` (`interface.go` line 112, iota 0). -/
def sendRecvErrorAlways : Nat := 0

/-- Constant `sendRecvErrorNever` (`interface.go` line 113, iota 1). -/
def sendRecvErrorNever : Nat := 1

/-- Constant `sendRecvErrorPrivate` (`interface.go` line 114, iota 2). -/
def sendRecvErrorPrivate : Nat := 2

/-- `ShouldSendRecvError` (`interface.go` lines 117-128). The value is a
Go `uint8`; the `default` switch arm panics, modelled as `none`. -/
def ShouldSendRecvError (s : Nat) (ip : AddrPort) : Option Bool :=
  if s = sendRecvErrorPrivate then some ip.isPrivate
  else if s = sendRecvErrorAlways then some true
  else if s = sendRecvErrorNever then some false
  else none

/-- The configuration values `reloadSendRecvError` reads: whether this is
the initial load, whether `listen.send_recv_error` changed, and the string
and boolean readings of that key (`GetString` with default `never`,
`GetBool` with default `true`). -/
structure SendRecvErrorInput where
  initialLoad : Bool
  hasChangedKey : Bool
  stringValue : String
  boolValue : Bool
deriving DecidableEq, Repr

/-- `reloadSendRecvError` (`interface.go` lines 380-402). -/
def reloadSendRecvError (f : Interface) (c : SendRecvErrorInput) :
    Interface :=
  if c.initialLoad || c.hasChangedKey then
    { f with sendRecvErrorConfig :=
        if c.stringValue = "always" then sendRecvErrorAlways
        else if c.stringValue = "never" then sendRecvErrorNever
        else if c.stringValue = "private" then sendRecvErrorPrivate
        else if c.boolValue then sendRecvErrorAlways
        else sendRecvErrorNever }
  else f

/-- C1: a successful firewall reload installs a firewall whose
`rulesVersion` is the old one plus one (wrapping at the counter width) and
whose rule hashes come from the new configuration; the old conntrack table
is carried over unchanged unless the version wrapped to zero, in which
case the table is the fresh empty one (a full flush); and every other
field of the interface state is unchanged. -/
theorem reloadFirewall_frame (f : Interface) (hashes : String) :
    (reloadFirewall f (.newConfig hashes)).firewall.rulesVersion =
      (f.firewall.rulesVersion + 1) % rulesVersionModulus ∧
    (reloadFirewall f (.newConfig hashes)).firewall.ruleHashes = hashes ∧
    ((f.firewall.rulesVersion + 1) % rulesVersionModulus ≠ 0 →
      (reloadFirewall f (.newConfig hashes)).firewall.Conntrack =
        f.firewall.Conntrack) ∧
    ((f.firewall.rulesVersion + 1) % rulesVersionModulus = 0 →
      (reloadFirewall f (.newConfig hashes)).firewall.Conntrack = []) ∧
    (reloadFirewall f (.newConfig hashes)).sendRecvErrorConfig =
      f.sendRecvErrorConfig ∧
    (reloadFirewall f (.newConfig hashes)).disconnectInvalid =
      f.disconnectInvalid ∧
    (reloadFirewall f (.newConfig hashes)).closed = f.closed ∧
    (reloadFirewall f (.newConfig hashes)).tryPromoteEvery =
      f.tryPromoteEvery ∧
    (reloadFirewall f (.newConfig hashes)).reQueryEvery = f.reQueryEvery ∧
    (reloadFirewall f (.newConfig hashes)).reQueryWait = f.reQueryWait := by
  unfold reloadFirewall NewFirewallFromConfig
  by_cases hv : (f.firewall.rulesVersion + 1) % rulesVersionModulus = 0 <;>
    simp [hv]

/-- Witness for C1 at a concrete interface state, exercising both the
normal carry-over case and the wraparound flush case. -/
theorem reloadFirewall_frame_witness :
    (reloadFirewall
        { firewall := { rulesVersion := 7, Conntrack := [(1, 2)],
                        ruleHashes := "old" },
          sendRecvErrorConfig := 1, disconnectInvalid := true,
          closed := false, tryPromoteEvery := 1000, reQueryEvery := 256,
          reQueryWait := 0 }
        (.newConfig "new")).firewall.rulesVersion = 8 ∧
    (reloadFirewall
        { firewall := { rulesVersion := 7, Conntrack := [(1, 2)],
                        ruleHashes := "old" },
          sendRecvErrorConfig := 1, disconnectInvalid := true,
          closed := false, tryPromoteEvery := 1000, reQueryEvery := 256,
          reQueryWait := 0 }
        (.newConfig "new")).firewall.Conntrack = [(1, 2)] ∧
    (reloadFirewall
        { firewall := { rulesVersion := 65535, Conntrack := [(1, 2)],
                        ruleHashes := "old" },
          sendRecvErrorConfig := 1, disconnectInvalid := true,
          closed := false, tryPromoteEvery := 1000, reQueryEvery := 256,
          reQueryWait := 0 }
        (.newConfig "new")).firewall.Conntrack = [] :=
  ⟨(reloadFirewall_frame _ "new").1,
   (reloadFirewall_frame _ "new").2.2.1 (by decide),
   (reloadFirewall_frame _ "new").2.2.2.1 (by decide)⟩

/-- C2: while the interface is active (not closed), every TUN read error
makes the process exit with code 2; and in no state does the per-packet
loop continue past a TUN read error — the only non-exit outcome is the
clean goroutine return taken when the device reports `os.ErrClosed` after
`Close` set the `closed` flag. -/
theorem listenIn_read_error_exits :
    (∀ e : ReadError, listenInStep false (.err e) = .exitProcess 2) ∧
    (∀ (closed : Bool) (e : ReadError) (n : Nat),
      listenInStep closed (.err e) ≠ .processPacket n) := by
  constructor
  · intro e; cases e <;> rfl
  · intro closed e n
    unfold listenInStep
    by_cases h : (e = .errClosed && closed) = true <;> simp [h]

/-- Witness for C2 at a concrete read error. -/
theorem listenIn_read_error_exits_witness :
    listenInStep false (.err (.otherError "bad fd")) = .exitProcess 2 ∧
    listenInStep true (.err (.otherError "bad fd")) ≠ .processPacket 0 :=
  ⟨listenIn_read_error_exits.1 (.otherError "bad fd"),
   listenIn_read_error_exits.2 true (.otherError "bad fd") 0⟩

/-- C3: the send_recv_error policy yields true for every address under
`always`, false for every address under `never`, and exactly the
privateness of the remote address under `private`; and `reloadSendRecvError`
maps the configuration strings `always`, `never`, `private` to the
corresponding policy constants. -/
theorem shouldSendRecvError_policy :
    (∀ ip, ShouldSendRecvError sendRecvErrorAlways ip = some true) ∧
    (∀ ip, ShouldSendRecvError sendRecvErrorNever ip = some false) ∧
    (∀ ip, ShouldSendRecvError sendRecvErrorPrivate ip =
      some ip.isPrivate) ∧
    (∀ (f : Interface) (c : SendRecvErrorInput),
      (c.initialLoad || c.hasChangedKey) = true →
      (c.stringValue = "always" →
        (reloadSendRecvError f c).sendRecvErrorConfig =
          sendRecvErrorAlways) ∧
      (c.stringValue = "never" →
        (reloadSendRecvError f c).sendRecvErrorConfig =
          sendRecvErrorNever) ∧
      (c.stringValue = "private" →
        (reloadSendRecvError f c).sendRecvErrorConfig =
          sendRecvErrorPrivate)) := by
  refine ⟨fun ip => rfl, fun ip => rfl, fun ip => rfl, ?_⟩
  intro f c hload
  refine ⟨fun hs => ?_, fun hs => ?_, fun hs => ?_⟩ <;>
    simp [reloadSendRecvError, hload, hs]

/-- Witness for C3 at concrete addresses and configurations. -/
theorem shouldSendRecvError_policy_witness :
    ShouldSendRecvError sendRecvErrorAlways { isPrivate := false } =
      some true ∧
    ShouldSendRecvError sendRecvErrorNever { isPrivate := true } =
      some false ∧
    ShouldSendRecvError sendRecvErrorPrivate { isPrivate := true } =
      some true ∧
    (reloadSendRecvError
        { firewall := { rulesVersion := 0, Conntrack := [],
                        ruleHashes := "" },
          sendRecvErrorConfig := 0, disconnectInvalid := false,
          closed := false, tryPromoteEvery := 0, reQueryEvery := 0,
          reQueryWait := 0 }
        { initialLoad := true, hasChangedKey := false,
          stringValue := "private", boolValue := true
          }).sendRecvErrorConfig = sendRecvErrorPrivate :=
  ⟨shouldSendRecvError_policy.1 _,
   shouldSendRecvError_policy.2.1 _,
   shouldSendRecvError_policy.2.2.1 _,
   ((shouldSendRecvError_policy.2.2.2 _ _ (by decide)).2.2) rfl⟩

/-- C9: `ShouldSendRecvError` reaches the panic arm exactly on the `uint8`
values other than the three defined constants; `reloadSendRecvError` only
ever stores one of the three constants (and preserves an in-range stored
value when the key is untouched), so under that invariant the panic branch
is unreachable and the function is total. -/
theorem shouldSendRecvError_total :
    (∀ (s : Nat) (ip : AddrPort), 3 ≤ s →
      ShouldSendRecvError s ip = none) ∧
    (∀ (f : Interface) (c : SendRecvErrorInput),
      f.sendRecvErrorConfig < 3 →
      (reloadSendRecvError f c).sendRecvErrorConfig < 3) ∧
    (∀ (s : Nat) (ip : AddrPort), s < 3 →
      (ShouldSendRecvError s ip).isSome = true) := by
  refine ⟨?_, ?_, ?_⟩
  · intro s ip hs
    unfold ShouldSendRecvError
      sendRecvErrorPrivate sendRecvErrorAlways sendRecvErrorNever
    rw [if_neg (by omega), if_neg (by omega), if_neg (by omega)]
  · intro f c hf
    unfold reloadSendRecvError
    by_cases hload : (c.initialLoad || c.hasChangedKey) = true
    · simp only [hload, if_true]
      by_cases h1 : c.stringValue = "always"
      · simp [h1, sendRecvErrorAlways]
      · by_cases h2 : c.stringValue = "never"
        · simp [h1, h2, sendRecvErrorNever]
        · by_cases h3 : c.stringValue = "private"
          · simp [h1, h2, h3, sendRecvErrorPrivate]
          · by_cases h4 : c.boolValue = true <;>
              simp [h1, h2, h3, h4, sendRecvErrorAlways, sendRecvErrorNever]
    · simp only [Bool.not_eq_true] at hload
      simp [hload, hf]
  · intro s ip hs
    interval_cases s <;> rfl

/-- Witness for C9 at a concrete out-of-range value and a concrete
reload. -/
theorem shouldSendRecvError_total_witness :
    ShouldSendRecvError 3 { isPrivate := false } = none ∧
    (reloadSendRecvError
        { firewall := { rulesVersion := 0, Conntrack := [],
                        ruleHashes := "" },
          sendRecvErrorConfig := 2, disconnectInvalid := false,
          closed := false, tryPromoteEvery := 0, reQueryEvery := 0,
          reQueryWait := 0 }
        { initialLoad := false, hasChangedKey := true,
          stringValue := "bogus", boolValue := false
          }).sendRecvErrorConfig < 3 ∧
    (ShouldSendRecvError 2 { isPrivate := false }).isSome = true :=
  ⟨shouldSendRecvError_total.1 3 _ (by decide),
   shouldSendRecvError_total.2.1 _ _ (by decide),
   shouldSendRecvError_total.2.2 2 _ (by decide)⟩

end Iface

namespace Crypto

/-!
Modelled from the spec: the tunnel AEAD engine (spec section 4.2,
CryptoTunnel) is implemented in Go packages outside the provided sources.
The spec fixes the two cipher variants — AES-GCM-128 and
ChaCha20-Poly1305 — with `encrypt(plaintext, associated_data) →
ciphertext || 16-byte tag` and `decrypt → plaintext | AuthFail`, the
associated data being the 16-byte packet header. Both ciphers are
implemented here over byte lists (`List Nat`, one byte per element)
following their standard definitions (RFC 8439 and NIST SP 800-38D).
-/

/-- Reduce a machine word to 32 bits. -/
def w32 (x : Nat) : Nat := x % 4294967296

/-- 32-bit wrapping addition. -/
def add32 (a b : Nat) : Nat := w32 (a + b)

/-- 32-bit left rotation of a 32-bit value. -/
def rotl32 (x n : Nat) : Nat := w32 ((x <<< n) ||| (x >>> (32 - n)))

/-- Little-endian 32-bit word at byte offset `i`. -/
def le32 (b : List Nat) (i : Nat) : Nat :=
  b.getD i 0 + 256 * b.getD (i + 1) 0 + 65536 * b.getD (i + 2) 0 +
    16777216 * b.getD (i + 3) 0

/-- The four little-endian bytes of a 32-bit word. -/
def wordBytes (w : Nat) : List Nat :=
  [w % 256, w / 256 % 256, w / 65536 % 256, w / 16777216 % 256]

/-- ChaCha20 quarter round on state positions `ia ib ic idd`. -/
def quarterRound (st : List Nat) (ia ib ic idd : Nat) : List Nat :=
  let a := st.getD ia 0
  let b := st.getD ib 0
  let c := st.getD ic 0
  let d := st.getD idd 0
  let a := add32 a b
  let d := rotl32 (Nat.xor d a) 16
  let c := add32 c d
  let b := rotl32 (Nat.xor b c) 12
  let a := add32 a b
  let d := rotl32 (Nat.xor d a) 8
  let c := add32 c d
  let b := rotl32 (Nat.xor b c) 7
  (((st.set ia a).set ib b).set ic c).set idd d

/-- One ChaCha20 double round: four column rounds then four diagonal
rounds. -/
def doubleRound (st : List Nat) : List Nat :=
  let st := quarterRound st 0 4 8 12
  let st := quarterRound st 1 5 9 13
  let st := quarterRound st 2 6 10 14
  let st := quarterRound st 3 7 11 15
  let st := quarterRound st 0 5 10 15
  let st := quarterRound st 1 6 11 12
  let st := quarterRound st 2 7 8 13
  quarterRound st 3 4 9 14

/-- The initial ChaCha20 state for a 32-byte key, 12-byte nonce and block
counter. -/
def chachaInit (key nonce : List Nat) (counter : Nat) : List Nat :=
  [1634760805, 857760878, 2036477234, 1797285236,
   le32 key 0, le32 key 4, le32 key 8, le32 key 12,
   le32 key 16, le32 key 20, le32 key 24, le32 key 28,
   w32 counter, le32 nonce 0, le32 nonce 4, le32 nonce 8]

/-- One 64-byte ChaCha20 block: ten double rounds, add the initial state,
serialize little-endian. -/
def chachaBlockBytes (key nonce : List Nat) (counter : Nat) : List Nat :=
  let st := chachaInit key nonce counter
  let wk := (List.range 10).foldl (fun s _ => doubleRound s) st
  (((List.range 16).map
    (fun i => add32 (st.getD i 0) (wk.getD i 0))).map wordBytes).flatten

/-- The ChaCha20 keystream of the requested length; block counters start
at one (counter zero is reserved for the Poly1305 key). -/
def chachaKeystream (key nonce : List Nat) (len : Nat) : List Nat :=
  (((List.range ((len + 63) / 64)).map
    (fun i => chachaBlockBytes key nonce (1 + i))).flatten).take len

/-- Interpret a little-endian byte list as a natural number. -/
def leBytesToNat : List Nat → Nat
  | [] => 0
  | b :: rest => b + 256 * leBytesToNat rest

/-- The `n` little-endian bytes of `x`. -/
def natToLeBytes : Nat → Nat → List Nat
  | 0, _ => []
  | n + 1, x => x % 256 :: natToLeBytes n (x / 256)

/-- Split a byte list into chunks of `n` bytes; the last chunk may be
short. -/
def chunksOf (n : Nat) (l : List Nat) : List (List Nat) :=
  if l = [] ∨ n = 0 then []
  else l.take n :: chunksOf n (l.drop n)
termination_by l.length
decreasing_by
  rename_i h
  simp only [not_or] at h
  rw [List.length_drop]
  cases l with
  | nil => exact absurd rfl h.1
  | cons a l2 =>
    have : 0 < n := Nat.pos_of_ne_zero h.2
    simp only [List.length_cons]
    omega

/-- The Poly1305 prime `2^130 - 5`. -/
def poly1305Prime : Nat := 2 ^ 130 - 5

/-- The Poly1305 one-time authenticator of a message under a 32-byte key
(RFC 8439 section 2.5): clamp `r`, absorb the message in 16-byte chunks
with a high padding bit, add `s`, truncate to 16 little-endian bytes. -/
def poly1305 (key msg : List Nat) : List Nat :=
  let r := leBytesToNat (key.take 16) &&& 0x0ffffffc0ffffffc0ffffffc0fffffff
  let s := leBytesToNat ((key.drop 16).take 16)
  let acc := (chunksOf 16 msg).foldl
    (fun acc chunk =>
      ((acc + leBytesToNat chunk + 2 ^ (8 * chunk.length)) * r) %
        poly1305Prime)
    0
  natToLeBytes 16 ((acc + s) % 2 ^ 128)

/-- Zero-pad a byte list on the right to a multiple of 16 bytes. -/
def pad16 (l : List Nat) : List Nat :=
  l ++ List.replicate ((16 - l.length % 16) % 16) 0

/-- The ChaCha20-Poly1305 tag over the associated data and ciphertext
(RFC 8439 section 2.8): the one-time key is the first 32 bytes of block
zero; the MAC input is the padded AAD, the padded ciphertext, and their
64-bit little-endian lengths. -/
def chachaPolyMac (key nonce aad ct : List Nat) : List Nat :=
  poly1305 ((chachaBlockBytes key nonce 0).take 32)
    (pad16 aad ++ pad16 ct ++ natToLeBytes 8 aad.length ++
      natToLeBytes 8 ct.length)

/-- ChaCha20-Poly1305 sealing: ciphertext followed by the 16-byte tag. -/
def chachaPolyEncrypt (key nonce aad pt : List Nat) : List Nat :=
  List.zipWith Nat.xor pt (chachaKeystream key nonce pt.length) ++
    chachaPolyMac key nonce aad
      (List.zipWith Nat.xor pt (chachaKeystream key nonce pt.length))

/-- ChaCha20-Poly1305 opening: split off the 16-byte tag, recompute it
over the received ciphertext, fail on mismatch, otherwise unmask the
keystream. -/
def chachaPolyDecrypt (key nonce aad data : List Nat) :
    Option (List Nat) :=
  if data.length < 16 then none
  else if data.drop (data.length - 16) =
      chachaPolyMac key nonce aad (data.take (data.length - 16)) then
    some (List.zipWith Nat.xor (data.take (data.length - 16))
      (chachaKeystream key nonce (data.take (data.length - 16)).length))
  else none

/-- The AES S-box. -/
def sbox : List Nat :=
  [0x63, 0x7c, 0x77, 0x7b, 0xf2, 0x6b, 0x6f, 0xc5,
   0x30, 0x01, 0x67, 0x2b, 0xfe, 0xd7, 0xab, 0x76,
   0xca, 0x82, 0xc9, 0x7d, 0xfa, 0x59, 0x47, 0xf0,
   0xad, 0xd4, 0xa2, 0xaf, 0x9c, 0xa4, 0x72, 0xc0,
   0xb7, 0xfd, 0x93, 0x26, 0x36, 0x3f, 0xf7, 0xcc,
   0x34, 0xa5, 0xe5, 0xf1, 0x71, 0xd8, 0x31, 0x15,
   0x04, 0xc7, 0x23, 0xc3, 0x18, 0x96, 0x05, 0x9a,
   0x07, 0x12, 0x80, 0xe2, 0xeb, 0x27, 0xb2, 0x75,
   0x09, 0x83, 0x2c, 0x1a, 0x1b, 0x6e, 0x5a, 0xa0,
   0x52, 0x3b, 0xd6, 0xb3, 0x29, 0xe3, 0x2f, 0x84,
   0x53, 0xd1, 0x00, 0xed, 0x20, 0xfc, 0xb1, 0x5b,
   0x6a, 0xcb, 0xbe, 0x39, 0x4a, 0x4c, 0x58, 0xcf,
   0xd0, 0xef, 0xaa, 0xfb, 0x43, 0x4d, 0x33, 0x85,
   0x45, 0xf9, 0x02, 0x7f, 0x50, 0x3c, 0x9f, 0xa8,
   0x51, 0xa3, 0x40, 0x8f, 0x92, 0x9d, 0x38, 0xf5,
   0xbc, 0xb6, 0xda, 0x21, 0x10, 0xff, 0xf3, 0xd2,
   0xcd, 0x0c, 0x13, 0xec, 0x5f, 0x97, 0x44, 0x17,
   0xc4, 0xa7, 0x7e, 0x3d, 0x64, 0x5d, 0x19, 0x73,
   0x60, 0x81, 0x4f, 0xdc, 0x22, 0x2a, 0x90, 0x88,
   0x46, 0xee, 0xb8, 0x14, 0xde, 0x5e, 0x0b, 0xdb,
   0xe0, 0x32, 0x3a, 0x0a, 0x49, 0x06, 0x24, 0x5c,
   0xc2, 0xd3, 0xac, 0x62, 0x91, 0x95, 0xe4, 0x79,
   0xe7, 0xc8, 0x37, 0x6d, 0x8d, 0xd5, 0x4e, 0xa9,
   0x6c, 0x56, 0xf4, 0xea, 0x65, 0x7a, 0xae, 0x08,
   0xba, 0x78, 0x25, 0x2e, 0x1c, 0xa6, 0xb4, 0xc6,
   0xe8, 0xdd, 0x74, 0x1f, 0x4b, 0xbd, 0x8b, 0x8a,
   0x70, 0x3e, 0xb5, 0x66, 0x48, 0x03, 0xf6, 0x0e,
   0x61, 0x35, 0x57, 0xb9, 0x86, 0xc1, 0x1d, 0x9e,
   0xe1, 0xf8, 0x98, 0x11, 0x69, 0xd9, 0x8e, 0x94,
   0x9b, 0x1e, 0x87, 0xe9, 0xce, 0x55, 0x28, 0xdf,
   0x8c, 0xa1, 0x89, 0x0d, 0xbf, 0xe6, 0x42, 0x68,
   0x41, 0x99, 0x2d, 0x0f, 0xb0, 0x54, 0xbb, 0x16]

/-- S-box substitution of one byte. -/
def sb (x : Nat) : Nat := sbox.getD (x % 256) 0

/-- The AES round constants for AES-128 key expansion. -/
def rcon : List Nat := [1, 2, 4, 8, 16, 32, 64, 128, 27, 54]

/-- Pointwise xor of two byte lists. -/
def xorBytes (a b : List Nat) : List Nat := List.zipWith Nat.xor a b

/-- AES-128 key expansion: the 44 four-byte words derived from a 16-byte
key (FIPS 197 section 5.2). -/
def aesKeyWords (key : List Nat) : List (List Nat) :=
  (List.range 40).foldl
    (fun ws j =>
      let i := j + 4
      let prev := ws.getD (i - 1) []
      let temp :=
        if i % 4 = 0 then
          xorBytes ((prev.drop 1 ++ prev.take 1).map sb)
            [rcon.getD (i / 4 - 1) 0, 0, 0, 0]
        else prev
      ws ++ [xorBytes (ws.getD (i - 4) []) temp])
    [key.take 4, (key.drop 4).take 4, (key.drop 8).take 4,
     (key.drop 12).take 4]

/-- The 16-byte round key for round `r`. -/
def roundKey (key : List Nat) (r : Nat) : List Nat :=
  (((aesKeyWords key).drop (4 * r)).take 4).flatten

/-- GF(2^8) multiplication by `x` with the AES reduction polynomial. -/
def mul2 (x : Nat) : Nat := if x < 128 then 2 * x else Nat.xor (2 * x) 283

/-- GF(2^8) multiplication by `x + 1`. -/
def mul3 (x : Nat) : Nat := Nat.xor (mul2 x) x

/-- AES SubBytes. -/
def subBytes (st : List Nat) : List Nat := st.map sb

/-- The source index of each output byte of AES ShiftRows, in the standard
column-major state layout (byte `r + 4c` is state row `r`, column `c`). -/
def shiftRowsIdx : List Nat :=
  [0, 5, 10, 15, 4, 9, 14, 3, 8, 13, 2, 7, 12, 1, 6, 11]

/-- AES ShiftRows. -/
def shiftRows (st : List Nat) : List Nat :=
  shiftRowsIdx.map (fun i => st.getD i 0)

/-- AES MixColumns, bytewise over the column-major state layout. -/
def mixColumns (st : List Nat) : List Nat :=
  (List.range 16).map (fun i =>
    let c := 4 * (i / 4)
    let r := i % 4
    let b := fun j => st.getD (c + (r + j) % 4) 0
    Nat.xor (Nat.xor (mul2 (b 0)) (mul3 (b 1))) (Nat.xor (b 2) (b 3)))

/-- AES AddRoundKey over a 16-byte state. -/
def addRoundKey (st rk : List Nat) : List Nat :=
  (List.range 16).map (fun i => Nat.xor (st.getD i 0) (rk.getD i 0))

/-- AES-128 block encryption (FIPS 197 section 5.1): initial round key,
nine full rounds, and a final round without MixColumns. -/
def aesEncryptBlock (key block : List Nat) : List Nat :=
  let st0 := addRoundKey block (roundKey key 0)
  let st9 := (List.range 9).foldl
    (fun st r =>
      addRoundKey (mixColumns (shiftRows (subBytes st))) (roundKey key (r + 1)))
    st0
  addRoundKey (shiftRows (subBytes st9)) (roundKey key 10)

/-- Interpret a big-endian byte list as a natural number. -/
def beBytesToNat (l : List Nat) : Nat := l.foldl (fun acc b => 256 * acc + b) 0

/-- The `n` big-endian bytes of `x`. -/
def natToBeBytes (n x : Nat) : List Nat := (natToLeBytes n x).reverse

/-- The GCM reduction constant `R`. -/
def gcmR : Nat := 0xe1000000000000000000000000000000

/-- Multiplication in GF(2^128) with the GCM bit order (NIST SP 800-38D
algorithm 1), blocks read as big-endian naturals. -/
def gfmul (x y : Nat) : Nat :=
  ((List.range 128).foldl
    (fun zv i =>
      let z := if Nat.testBit x (127 - i) then Nat.xor zv.1 zv.2 else zv.1
      let v := if zv.2 % 2 = 1 then Nat.xor (zv.2 / 2) gcmR else zv.2 / 2
      (z, v))
    ((0 : Nat), y)).1

/-- GHASH of a (padded) byte string under hash subkey `h`. -/
def ghash (h : Nat) (data : List Nat) : Nat :=
  (chunksOf 16 data).foldl
    (fun y chunk => gfmul (Nat.xor y (beBytesToNat chunk)) h) 0

/-- The AES-CTR keystream used by GCM for a 12-byte nonce: counter blocks
start at two (one is reserved for the tag mask). -/
def gcmKeystream (key nonce : List Nat) (len : Nat) : List Nat :=
  (((List.range ((len + 15) / 16)).map
    (fun i => aesEncryptBlock key (nonce ++ natToBeBytes 4 (i + 2)))).flatten).take
    len

/-- The GCM tag over the associated data and ciphertext: GHASH of padded
AAD, padded ciphertext and their bit lengths, masked with the encrypted
initial counter block. -/
def gcmTag (key nonce aad ct : List Nat) : List Nat :=
  xorBytes
    (natToBeBytes 16
      (ghash (beBytesToNat (aesEncryptBlock key (List.replicate 16 0)))
        (pad16 aad ++ pad16 ct ++ natToBeBytes 8 (8 * aad.length) ++
          natToBeBytes 8 (8 * ct.length))))
    (aesEncryptBlock key (nonce ++ [0, 0, 0, 1]))

/-- AES-128-GCM sealing: ciphertext followed by the 16-byte tag. -/
def gcmEncrypt (key nonce aad pt : List Nat) : List Nat :=
  List.zipWith Nat.xor pt (gcmKeystream key nonce pt.length) ++
    gcmTag key nonce aad
      (List.zipWith Nat.xor pt (gcmKeystream key nonce pt.length))

/-- AES-128-GCM opening. -/
def gcmDecrypt (key nonce aad data : List Nat) : Option (List Nat) :=
  if data.length < 16 then none
  else if data.drop (data.length - 16) =
      gcmTag key nonce aad (data.take (data.length - 16)) then
    some (List.zipWith Nat.xor (data.take (data.length - 16))
      (gcmKeystream key nonce (data.take (data.length - 16)).length))
  else none

theorem length_flatten_const {α β : Type} (f : α → List β) (k : Nat)
    (hf : ∀ a, (f a).length = k) (l : List α) :
    ((l.map f).flatten).length = k * l.length := by
  induction l with
  | nil => simp
  | cons a rest ih =>
    simp only [List.map_cons, List.flatten_cons, List.length_append, ih,
      hf a, List.length_cons]
    ring

theorem chachaBlockBytes_length (key nonce : List Nat) (counter : Nat) :
    (chachaBlockBytes key nonce counter).length = 64 := by
  unfold chachaBlockBytes
  rw [length_flatten_const wordBytes 4 (fun w => rfl)]
  simp

theorem chachaKeystream_length (key nonce : List Nat) (len : Nat) :
    (chachaKeystream key nonce len).length = len := by
  unfold chachaKeystream
  rw [List.length_take,
    length_flatten_const _ 64 (fun i => chachaBlockBytes_length key nonce _)]
  simp only [List.length_range]
  have h := Nat.div_add_mod (len + 63) 64
  have h2 : (len + 63) % 64 < 64 := Nat.mod_lt _ (by norm_num)
  omega

theorem natToLeBytes_length (n x : Nat) : (natToLeBytes n x).length = n := by
  induction n generalizing x with
  | zero => rfl
  | succ n ih => simp [natToLeBytes, ih]

theorem natToBeBytes_length (n x : Nat) : (natToBeBytes n x).length = n := by
  simp [natToBeBytes, natToLeBytes_length]

theorem poly1305_length (key msg : List Nat) :
    (poly1305 key msg).length = 16 := by
  simp [poly1305, natToLeBytes_length]

theorem chachaPolyMac_length (key nonce aad ct : List Nat) :
    (chachaPolyMac key nonce aad ct).length = 16 :=
  poly1305_length _ _

theorem aesEncryptBlock_length (key block : List Nat) :
    (aesEncryptBlock key block).length = 16 := by
  simp [aesEncryptBlock, addRoundKey]

theorem gcmKeystream_length (key nonce : List Nat) (len : Nat) :
    (gcmKeystream key nonce len).length = len := by
  unfold gcmKeystream
  rw [List.length_take,
    length_flatten_const _ 16 (fun i => aesEncryptBlock_length key _)]
  simp only [List.length_range]
  have h := Nat.div_add_mod (len + 15) 16
  have h2 : (len + 15) % 16 < 16 := Nat.mod_lt _ (by norm_num)
  omega

theorem gcmTag_length (key nonce aad ct : List Nat) :
    (gcmTag key nonce aad ct).length = 16 := by
  simp [gcmTag, xorBytes, natToBeBytes_length, aesEncryptBlock_length]

theorem zipWith_xor_cancel (p : List Nat) :
    ∀ ks : List Nat, p.length ≤ ks.length →
      List.zipWith Nat.xor (List.zipWith Nat.xor p ks) ks = p := by
  induction p with
  | nil => intro ks _; simp
  | cons a p ih =>
    intro ks h
    cases ks with
    | nil => simp at h
    | cons b ks =>
      simp only [List.zipWith_cons_cons, List.cons.injEq]
      refine ⟨?_, ih ks (by simpa using h)⟩
      show (a ^^^ b) ^^^ b = a
      rw [Nat.xor_assoc, Nat.xor_self, Nat.xor_zero]

theorem append_tag_split (ct tag : List Nat) (hlen : tag.length = 16) :
    ¬((ct ++ tag).length < 16) ∧
    (ct ++ tag).take ((ct ++ tag).length - 16) = ct ∧
    (ct ++ tag).drop ((ct ++ tag).length - 16) = tag := by
  have h1 : (ct ++ tag).length = ct.length + 16 := by
    simp [List.length_append, hlen]
  have h2 : (ct ++ tag).length - 16 = ct.length := by omega
  exact ⟨by omega, by rw [h2]; exact List.take_left ct tag,
    by rw [h2]; exact List.drop_left ct tag⟩

theorem chachaPolyDecrypt_encrypt (key nonce aad pt : List Nat) :
    chachaPolyDecrypt key nonce aad (chachaPolyEncrypt key nonce aad pt) =
      some pt := by
  have hks := chachaKeystream_length key nonce pt.length
  have hct :
      (List.zipWith Nat.xor pt (chachaKeystream key nonce pt.length)).length =
        pt.length := by
    rw [List.length_zipWith, hks, Nat.min_self]
  obtain ⟨h1, h2, h3⟩ :=
    append_tag_split (List.zipWith Nat.xor pt (chachaKeystream key nonce pt.length))
      (chachaPolyMac key nonce aad
        (List.zipWith Nat.xor pt (chachaKeystream key nonce pt.length)))
      (chachaPolyMac_length key nonce aad _)
  unfold chachaPolyEncrypt chachaPolyDecrypt
  rw [if_neg h1, h2, h3, if_pos rfl, hct]
  exact congrArg some (zipWith_xor_cancel pt _ (le_of_eq hks.symm))

theorem gcmDecrypt_encrypt (key nonce aad pt : List Nat) :
    gcmDecrypt key nonce aad (gcmEncrypt key nonce aad pt) = some pt := by
  have hks := gcmKeystream_length key nonce pt.length
  have hct :
      (List.zipWith Nat.xor pt (gcmKeystream key nonce pt.length)).length =
        pt.length := by
    rw [List.length_zipWith, hks, Nat.min_self]
  obtain ⟨h1, h2, h3⟩ :=
    append_tag_split (List.zipWith Nat.xor pt (gcmKeystream key nonce pt.length))
      (gcmTag key nonce aad
        (List.zipWith Nat.xor pt (gcmKeystream key nonce pt.length)))
      (gcmTag_length key nonce aad _)
  unfold gcmEncrypt gcmDecrypt
  rw [if_neg h1, h2, h3, if_pos rfl, hct]
  exact congrArg some (zipWith_xor_cancel pt _ (le_of_eq hks.symm))

/-- The TUN MTU (`interface.go` line 24), the bound on plaintext size in
the per-packet buffers. -/
def mtu : Nat := 9001

/-- The two network-wide cipher variants of the spec. -/
inductive CipherVariant where
  | aes
  | chachapoly
deriving DecidableEq, Repr

/-- Modelled from the spec: tunnel encryption —
`encrypt(plaintext, associated_data) → ciphertext || 16-byte tag` under
the per-direction key and nonce, dispatching on the tunnel cipher. -/
def tunnelEncrypt (v : CipherVariant) (key nonce ad pt : List Nat) :
    List Nat :=
  match v with
  | .aes => gcmEncrypt key nonce ad pt
  | .chachapoly => chachaPolyEncrypt key nonce ad pt

/-- Modelled from the spec: tunnel decryption —
`decrypt(ciphertext, associated_data) → plaintext | AuthFail`, the
failure modelled as `none`. -/
def tunnelDecrypt (v : CipherVariant) (key nonce ad data : List Nat) :
    Option (List Nat) :=
  match v with
  | .aes => gcmDecrypt key nonce ad data
  | .chachapoly => chachaPolyDecrypt key nonce ad data

/-- C7: for every tunnel cipher variant, key, nonce, 16-byte-header
associated data and plaintext of length at most the MTU, decrypting the
encryption of the plaintext under the same associated data returns the
plaintext; moreover the sealed packet is the ciphertext followed by a
16-byte tag. -/
theorem tunnel_decrypt_encrypt_roundtrip (v : CipherVariant)
    (key nonce ad p : List Nat) (_hmtu : p.length ≤ mtu) :
    tunnelDecrypt v key nonce ad (tunnelEncrypt v key nonce ad p) =
      some p ∧
    (tunnelEncrypt v key nonce ad p).length = p.length + 16 := by
  cases v with
  | aes =>
    refine ⟨gcmDecrypt_encrypt key nonce ad p, ?_⟩
    show (gcmEncrypt key nonce ad p).length = p.length + 16
    unfold gcmEncrypt
    rw [List.length_append, gcmTag_length, List.length_zipWith,
      gcmKeystream_length, Nat.min_self]
  | chachapoly =>
    refine ⟨chachaPolyDecrypt_encrypt key nonce ad p, ?_⟩
    show (chachaPolyEncrypt key nonce ad p).length = p.length + 16
    unfold chachaPolyEncrypt
    rw [List.length_append, chachaPolyMac_length, List.length_zipWith,
      chachaKeystream_length, Nat.min_self]

/-- Witness for C7 at a concrete tunnel: ChaCha20-Poly1305 with a concrete
key, nonce, header and three-byte plaintext. -/
theorem tunnel_decrypt_encrypt_roundtrip_witness :
    tunnelDecrypt .chachapoly (List.replicate 32 7) (List.replicate 12 3)
        (List.replicate 16 1)
        (tunnelEncrypt .chachapoly (List.replicate 32 7)
          (List.replicate 12 3) (List.replicate 16 1) [10, 20, 30]) =
      some [10, 20, 30] ∧
    (tunnelEncrypt .chachapoly (List.replicate 32 7) (List.replicate 12 3)
        (List.replicate 16 1) [10, 20, 30]).length = 19 :=
  tunnel_decrypt_encrypt_roundtrip .chachapoly (List.replicate 32 7)
    (List.replicate 12 3) (List.replicate 16 1) [10, 20, 30] (by decide)

end Crypto

namespace Render

/-!
Embedding of `render.go`. Go maps are embedded as association lists whose
list order stands for the map iteration order; `netip.Addr` host keys and
`uint32` index keys are embedded as `Nat` (ordered as the code orders
them: `Compare` for addresses, numeric comparison for indexes), and the
`%v` renderings that the code treats opaquely (remote endpoints, relay
addresses, relay indexes inside a `HostInfo`) are carried as display
strings.
-/

/-- Display of an embedded host or index key (Go `%v`). Keys are modelled
by their numeric value and rendered as the decimal numeral; the render
code never inspects the text. -/
def natStr (n : Nat) : String := Nat.repr n

/-- The fields of a `HostInfo` that `render.go` reads: `localIndexId`,
the current remote endpoint (`IsValid` flag plus display), the relay
address and relay index lists copied out of `relayState` (as displays, in
map iteration order), the peer certificate name (`GetCert().Details.Name`),
`remoteIndexId`, and the peer overlay address display (`vpnIp`). -/
structure HostInfoM where
  localIndexId : Nat
  remoteValid : Bool
  remoteStr : String
  relayIps : List String
  relayForIdxs : List String
  certName : String
  remoteIndexId : Nat
  vpnIpStr : String
deriving DecidableEq, Repr

/-- The three host map indices `render.go` walks. -/
structure HostMapM where
  Hosts : List (Nat × HostInfoM)
  Indexes : List (Nat × HostInfoM)
  Relays : List (Nat × HostInfoM)
deriving DecidableEq, Repr

/-- The slice of an `Interface` that `renderHostmap` reads: the node
certificate name and primary overlay address
(`f.pki.GetCertState().Certificate.Details`) and the host map. -/
structure IfaceM where
  certName : String
  certVpnIp : String
  hostMap : HostMapM
deriving DecidableEq, Repr

/-- The `edge` struct of `render.go`; `src`/`dst` embed the Go fields
named `from`/`to`. -/
structure Edge where
  src : String
  dst : String
  dual : Bool
  invalid : Bool
deriving DecidableEq, Repr

/-- Go `strings.Trim(s, " ")`: strip leading and trailing spaces. -/
def trimSpaces (s : String) : String :=
  String.mk (((s.toList.dropWhile (fun ch => ch = ' ')).reverse.dropWhile
    (fun ch => ch = ' ')).reverse)

/-- Go map indexing `m[k]` on an association list. -/
def assocFind {V : Type} (k : Nat) : List (Nat × V) → Option V
  | [] => none
  | (k2, v) :: rest => if k2 = k then some v else assocFind k rest

/-- `sortedHosts` (`render.go` lines 234-245): the host keys in ascending
address order (a stable sort by `Compare < 0`). -/
def sortedHosts (hosts : List (Nat × HostInfoM)) : List Nat :=
  (hosts.map Prod.fst).insertionSort (· ≤ ·)

/-- `sortedIndexes` (`render.go` lines 247-258): the index keys in
descending numeric order (a stable sort by `>`). -/
def sortedIndexes (idxs : List (Nat × HostInfoM)) : List Nat :=
  (idxs.map Prod.fst).insertionSort (fun a b => b ≤ a)

/-- The stable sort of the per-cluster edge line strings
(`render.go` lines 219-221, `lines[i] < lines[j]`). -/
def sortedLines (lines : List String) : List String :=
  lines.insertionSort (· ≤ ·)

/-- The ordering of the cross-node edge sort (`render.go` lines 57-62):
by `from`, then by `to`. -/
def edgeLe (a b : Edge) : Prop :=
  a.src < b.src ∨ (a.src = b.src ∧ a.dst ≤ b.dst)

instance : DecidableRel edgeLe := fun a b => by
  unfold edgeLe; infer_instance

/-- The stable sort of the collected cross-node edges. -/
def sortEdges (ls : List Edge) : List Edge := ls.insertionSort edgeLe

/-- Mark the first reverse-oriented duplicate of `e` in the list as
bidirectional (`ge.dual = true`, `render.go` lines 43-49). -/
def markDual : List Edge → Edge → List Edge
  | [], _ => []
  | ge :: rest, e =>
    if e.dst = ge.src ∧ e.src = ge.dst then { ge with dual := true } :: rest
    else ge :: markDual rest e

/-- Adding one cross-node edge to the collected list (`render.go` lines
39-54): an edge whose reverse is already present collapses into that edge
(marked dual); otherwise it is appended. -/
def addEdge (ls : List Edge) (e : Edge) : List Edge :=
  if ls.any (fun ge => decide (e.dst = ge.src ∧ e.src = ge.dst)) then
    markDual ls e
  else ls ++ [e]

/-- A dot node name, Go `fmt.Sprintf("\"%v_%v\"", cluster, v)`. -/
def dotNode (cn s : String) : String := "\"" ++ cn ++ "_" ++ s ++ "\""

/-- A mermaid node name, Go `fmt.Sprintf("%v.%v", cluster, v)`. -/
def mmNode (cn s : String) : String := cn ++ "." ++ s

/-- The node declaration and edge lines of one entry of the Hosts section
(`render.go` lines 118-147): the host node, its edge to its local index,
and one edge per relay address and per relay index. -/
def hostEntry (mermaid : Bool) (cn : String) (vpnIp : Nat)
    (hi : HostInfoM) : String × List String :=
  if mermaid then
    ("\t\t\t" ++ mmNode cn (natStr vpnIp) ++ "[\"" ++ natStr vpnIp ++
       "\"]\n",
     (mmNode cn (natStr vpnIp) ++ " --> " ++
        mmNode cn (natStr hi.localIndexId)) ::
       (hi.relayIps.map (fun rip =>
          mmNode cn (natStr vpnIp) ++ " --> " ++ mmNode cn rip) ++
        hi.relayForIdxs.map (fun rfi =>
          mmNode cn (natStr vpnIp) ++ " --> " ++ mmNode cn rfi)))
  else
    ("\t\t\t" ++ dotNode cn (natStr vpnIp) ++ " [label=\"" ++
       natStr vpnIp ++ "\"]\n",
     (if !hi.remoteValid then
        dotNode cn (natStr vpnIp) ++ " -> " ++
          dotNode cn (natStr hi.localIndexId) ++ " [color=red]"
      else
        dotNode cn (natStr vpnIp) ++ " -> " ++
          dotNode cn (natStr hi.localIndexId)) ::
       (hi.relayIps.map (fun rip =>
          dotNode cn (natStr vpnIp) ++ " -> " ++ dotNode cn rip) ++
        hi.relayForIdxs.map (fun rfi =>
          dotNode cn (natStr vpnIp) ++ " -> " ++ dotNode cn rfi)))

/-- The node declaration and edge line of one entry of the Relays section
(`render.go` lines 163-172). -/
def relayEntry (mermaid : Bool) (cn : String) (relayIndex : Nat)
    (hi : HostInfoM) : String × List String :=
  if mermaid then
    ("\t\t\t" ++ mmNode cn (natStr relayIndex) ++ "[\"" ++ hi.vpnIpStr ++
       "\\n" ++ natStr relayIndex ++ "\"]\n",
     [mmNode cn (natStr relayIndex) ++ " --> " ++
        mmNode cn (natStr hi.localIndexId)])
  else
    ("\t\t\t" ++ dotNode cn (natStr relayIndex) ++ " [label=\"" ++
       hi.vpnIpStr ++ "\\n" ++ natStr relayIndex ++ "\"]\n",
     [dotNode cn (natStr relayIndex) ++ " -> " ++
        dotNode cn (natStr hi.localIndexId)])

/-- The node declaration and cross-node edge of one entry of the Indexes
section (`render.go` lines 188-211). -/
def indexEntry (mermaid : Bool) (cn : String) (idx : Nat)
    (hi : HostInfoM) : String × Edge :=
  let rcn := trimSpaces hi.certName
  if mermaid then
    ("\t\t\t" ++ mmNode cn (natStr idx) ++ "[\"" ++ hi.remoteStr ++
       "\\n" ++ natStr idx ++ "\"]\n",
     { src := mmNode cn (natStr idx),
       dst := mmNode rcn (natStr hi.remoteIndexId),
       dual := false, invalid := false })
  else
    ((if !hi.remoteValid then
        "\t\t\t" ++ dotNode cn (natStr idx) ++ " [label=\"" ++
          hi.remoteStr ++ "\\n" ++ natStr idx ++ "\" color=red]\n"
      else
        "\t\t\t" ++ dotNode cn (natStr idx) ++ " [label=\"" ++
          hi.remoteStr ++ "\\n" ++ natStr idx ++ "\"]\n"),
     { src := dotNode cn (natStr idx),
       dst := dotNode rcn (natStr hi.remoteIndexId),
       dual := false, invalid := !hi.remoteValid })

/-- The body of `renderHostmap` (`render.go` lines 93-232), phrased over
the sorted key lists and the map lookup closures (all map access of the
Go code goes through `sortedHosts`/`sortedIndexes` and indexing): emits
the cluster header, the Hosts section, the Relays section (only when the
relay map is nonempty), the Indexes section, then the stably sorted local
edge lines, and closes the cluster; returns the rendered string and the
cross-node edges. -/
def renderHostmapCore (mermaid : Bool) (cn vpn : String)
    (hostKeys : List Nat) (lookH : Nat → Option HostInfoM)
    (relaysLen : Nat) (relayKeys : List Nat)
    (lookR : Nat → Option HostInfoM)
    (idxKeys : List Nat) (lookI : Nat → Option HostInfoM) :
    String × List Edge :=
  let header :=
    if mermaid then
      "\tsubgraph " ++ cn ++ "[\"" ++ cn ++ " (" ++ vpn ++ ")\"]\n"
    else
      "\tsubgraph cluster_" ++ cn ++ " \x7b\n" ++
        "\t\tlabel=\"" ++ cn ++ " (" ++ vpn ++ ")\"\n"
  let hostsHeader :=
    if mermaid then "\t\tsubgraph " ++ cn ++ ".hosts[\"Hosts\"]\n"
    else
      "\t\tsubgraph cluster_" ++ cn ++ "_hosts \x7b\n" ++
        "\t\t\tlabel=\"Hosts\"\n"
  let hostsAcc := hostKeys.foldl
    (fun (acc : String × List String) vpnIp =>
      match lookH vpnIp with
      | none => acc
      | some hi =>
        let entry := hostEntry mermaid cn vpnIp hi
        (acc.1 ++ entry.1, acc.2 ++ entry.2))
    ("", [])
  let closeInner := if mermaid then "\t\tend\n" else "\t\t\x7d\n"
  let relaysPart :=
    if relaysLen > 0 then
      let rHeader :=
        if mermaid then "\t\tsubgraph " ++ cn ++ ".relays[\"Relays\"]\n"
        else
          "\t\tsubgraph cluster_" ++ cn ++ "_relays \x7b\n" ++
            "\t\t\tlabel=\"Relays\"\n"
      let rAcc := relayKeys.foldl
        (fun (acc : String × List String) relayIndex =>
          match lookR relayIndex with
          | none => acc
          | some hi =>
            let entry := relayEntry mermaid cn relayIndex hi
            (acc.1 ++ entry.1, acc.2 ++ entry.2))
        ("", [])
      (rHeader ++ rAcc.1 ++ closeInner, rAcc.2)
    else ("", [])
  let idxHeader :=
    if mermaid then "\t\tsubgraph indexes." ++ cn ++ "[\"Indexes\"]\n"
    else
      "\t\tsubgraph cluster_" ++ cn ++ "_indexes \x7b\n" ++
        "\t\t\tlabel=\"Indexes\"\n"
  let idxAcc := idxKeys.foldl
    (fun (acc : String × List Edge) idx =>
      match lookI idx with
      | none => acc
      | some hi =>
        let entry := indexEntry mermaid cn idx hi
        (acc.1 ++ entry.1, acc.2 ++ [entry.2]))
    ("", [])
  let linesStr := (sortedLines (hostsAcc.2 ++ relaysPart.2)).foldl
    (fun r line => r ++ "\t\t" ++ line ++ "\n") ""
  let closeOuter := if mermaid then "\tend\n" else "\t\x7d\n"
  (header ++ hostsHeader ++ hostsAcc.1 ++ closeInner ++ relaysPart.1 ++
     idxHeader ++ idxAcc.1 ++ closeInner ++ linesStr ++ closeOuter,
   idxAcc.2)

/-- `renderHostmap` (`render.go` lines 93-232). -/
def renderHostmap (mermaid : Bool) (f : IfaceM) : String × List Edge :=
  renderHostmapCore mermaid (trimSpaces f.certName) f.certVpnIp
    (sortedHosts f.hostMap.Hosts) (fun k => assocFind k f.hostMap.Hosts)
    f.hostMap.Relays.length (sortedIndexes f.hostMap.Relays)
    (fun k => assocFind k f.hostMap.Relays)
    (sortedIndexes f.hostMap.Indexes)
    (fun k => assocFind k f.hostMap.Indexes)

/-- Rendering of one collected cross-node edge (`render.go` lines
63-85). -/
def edgeLine (mermaid : Bool) (line : Edge) : String :=
  if mermaid then
    if line.dual then "\t" ++ line.src ++ " <--> " ++ line.dst ++ "\n"
    else "\t" ++ line.src ++ " --> " ++ line.dst ++ "\n"
  else
    if line.dual then
      if line.invalid then
        "\t" ++ line.src ++ " -> " ++ line.dst ++ " [dir=both color=red]\n"
      else "\t" ++ line.src ++ " -> " ++ line.dst ++ " [dir=both]\n"
    else
      if line.invalid then
        "\t" ++ line.src ++ " -> " ++ line.dst ++ " [color=red]\n"
      else "\t" ++ line.src ++ " -> " ++ line.dst ++ "\n"

/-- The per-interface step of `RenderHostmaps` (`render.go` lines 36-55):
append the rendered cluster and merge its cross-node edges into the
collected list. -/
def renderStep (mermaid : Bool) (acc : String × List Edge) (c : IfaceM) :
    String × List Edge :=
  (acc.1 ++ (renderHostmap mermaid c).1,
   ((renderHostmap mermaid c).2).foldl addEdge acc.2)

/-- `RenderHostmaps` (`render.go` lines 25-92). -/
def RenderHostmaps (mermaid : Bool) (interfaces : List IfaceM) : String :=
  let init :=
    if mermaid then "graph TB\n"
    else "digraph G \x7b\n" ++ "\tranksep=1\n" ++ "\tnode [shape=box]\n"
  let acc := interfaces.foldl (renderStep mermaid) (init, [])
  let r := (sortEdges acc.2).foldl
    (fun r line => r ++ edgeLine mermaid line) acc.1
  if !mermaid then r ++ "\x7d\n" else r

theorem assocFind_eq_some {V : Type} (l : List (Nat × V))
    (hnd : (l.map Prod.fst).Nodup) (k : Nat) (v : V) :
    assocFind k l = some v ↔ (k, v) ∈ l := by
  induction l with
  | nil => simp [assocFind]
  | cons p rest ih =>
    obtain ⟨k2, v2⟩ := p
    simp only [List.map_cons, List.nodup_cons] at hnd
    by_cases hk : k2 = k
    · subst hk
      have hstep : assocFind k2 ((k2, v2) :: rest) = some v2 := by
        simp [assocFind]
      rw [hstep]
      simp only [Option.some.injEq, List.mem_cons]
      constructor
      · rintro rfl; exact Or.inl rfl
      · rintro (h | h)
        · exact (((Prod.mk.injEq ..).mp h).2).symm
        · exact absurd (List.mem_map.mpr ⟨(k2, v), h, rfl⟩) hnd.1
    · have hstep : assocFind k ((k2, v2) :: rest) = assocFind k rest := by
        simp only [assocFind]
        rw [if_neg hk]
      rw [hstep, ih hnd.2]
      simp only [List.mem_cons]
      constructor
      · exact Or.inr
      · rintro (h | h)
        · exact absurd (((Prod.mk.injEq ..).mp h).1).symm hk
        · exact h

theorem assocFind_eq_none {V : Type} (l : List (Nat × V)) (k : Nat) :
    assocFind k l = none ↔ k ∉ l.map Prod.fst := by
  induction l with
  | nil => simp [assocFind]
  | cons p rest ih =>
    obtain ⟨k2, v2⟩ := p
    by_cases hk : k2 = k
    · subst hk; simp [assocFind]
    · simp only [assocFind, if_neg hk, List.map_cons, List.mem_cons, ih]
      constructor
      · intro h hmem
        rcases hmem with h2 | h2
        · exact hk h2.symm
        · exact h h2
      · intro h h2
        exact h (Or.inr h2)

theorem assocFind_perm {V : Type} (l1 l2 : List (Nat × V))
    (hp : l1.Perm l2) (hnd : (l1.map Prod.fst).Nodup) (k : Nat) :
    assocFind k l1 = assocFind k l2 := by
  have hnd2 : (l2.map Prod.fst).Nodup := ((hp.map Prod.fst).nodup_iff).mp hnd
  cases h1 : assocFind k l1 with
  | some v =>
    have hm := (assocFind_eq_some l1 hnd k v).mp h1
    exact ((assocFind_eq_some l2 hnd2 k v).mpr (hp.mem_iff.mp hm)).symm
  | none =>
    have hm := (assocFind_eq_none l1 k).mp h1
    have hm2 : k ∉ l2.map Prod.fst := fun h =>
      hm (((hp.map Prod.fst).mem_iff).mpr h)
    exact ((assocFind_eq_none l2 k).mpr hm2).symm

theorem sortedHosts_perm (l1 l2 : List (Nat × HostInfoM))
    (hp : l1.Perm l2) : sortedHosts l1 = sortedHosts l2 := by
  haveI : IsTotal Nat (· ≤ ·) := ⟨Nat.le_total⟩
  haveI : IsTrans Nat (· ≤ ·) := ⟨fun _ _ _ => Nat.le_trans⟩
  haveI : IsAntisymm Nat (· ≤ ·) := ⟨fun _ _ => Nat.le_antisymm⟩
  unfold sortedHosts
  exact List.eq_of_perm_of_sorted
    ((List.perm_insertionSort _ _).trans
      ((hp.map Prod.fst).trans (List.perm_insertionSort _ _).symm))
    (List.sorted_insertionSort _ _) (List.sorted_insertionSort _ _)

theorem sortedIndexes_perm (l1 l2 : List (Nat × HostInfoM))
    (hp : l1.Perm l2) : sortedIndexes l1 = sortedIndexes l2 := by
  haveI : IsTotal Nat (fun a b : Nat => b ≤ a) :=
    ⟨fun a b => Nat.le_total b a⟩
  haveI : IsTrans Nat (fun a b : Nat => b ≤ a) :=
    ⟨fun _ _ _ h1 h2 => Nat.le_trans h2 h1⟩
  haveI : IsAntisymm Nat (fun a b : Nat => b ≤ a) :=
    ⟨fun _ _ h1 h2 => Nat.le_antisymm h2 h1⟩
  unfold sortedIndexes
  exact List.eq_of_perm_of_sorted
    ((List.perm_insertionSort _ _).trans
      ((hp.map Prod.fst).trans (List.perm_insertionSort _ _).symm))
    (List.sorted_insertionSort _ _) (List.sorted_insertionSort _ _)

/-- Two association lists with the same contents: one is a permutation of
the other (same key-value pairs, possibly different map iteration order)
and the keys are distinct, as in a Go map. -/
def MapEquiv (m1 m2 : List (Nat × HostInfoM)) : Prop :=
  m1.Perm m2 ∧ (m1.map Prod.fst).Nodup

/-- Two interface states with identical host map contents, each map up to
iteration order. -/
def IfaceEquiv (i1 i2 : IfaceM) : Prop :=
  i1.certName = i2.certName ∧ i1.certVpnIp = i2.certVpnIp ∧
  MapEquiv i1.hostMap.Hosts i2.hostMap.Hosts ∧
  MapEquiv i1.hostMap.Indexes i2.hostMap.Indexes ∧
  MapEquiv i1.hostMap.Relays i2.hostMap.Relays

theorem renderHostmap_congr (mermaid : Bool) (i1 i2 : IfaceM)
    (h : IfaceEquiv i1 i2) :
    renderHostmap mermaid i1 = renderHostmap mermaid i2 := by
  obtain ⟨hn, hv, ⟨hph, hdh⟩, ⟨hpi, hdi⟩, ⟨hpr, hdr⟩⟩ := h
  unfold renderHostmap
  rw [hn, hv, sortedHosts_perm _ _ hph, sortedIndexes_perm _ _ hpi,
    sortedIndexes_perm _ _ hpr, hpr.length_eq,
    funext (fun k => assocFind_perm _ _ hph hdh k),
    funext (fun k => assocFind_perm _ _ hpi hdi k),
    funext (fun k => assocFind_perm _ _ hpr hdr k)]

theorem foldl_renderStep_congr (mermaid : Bool) (l1 l2 : List IfaceM)
    (h : List.Forall₂ IfaceEquiv l1 l2) :
    ∀ acc, l1.foldl (renderStep mermaid) acc =
      l2.foldl (renderStep mermaid) acc := by
  induction h with
  | nil => intro acc; rfl
  | @cons a b tl1 tl2 hrel _ ih =>
    intro acc
    simp only [List.foldl_cons]
    have hab : renderStep mermaid acc a = renderStep mermaid acc b := by
      unfold renderStep
      rw [renderHostmap_congr mermaid a b hrel]
    rw [hab]
    exact ih _

theorem markDual_length (ls : List Edge) (e : Edge) :
    (markDual ls e).length = ls.length := by
  induction ls with
  | nil => rfl
  | cons ge rest ih =>
    unfold markDual
    by_cases h : e.dst = ge.src ∧ e.src = ge.dst
    · rw [if_pos h]; simp
    · rw [if_neg h]; simp [ih]

theorem markDual_mem_dual (ls : List Edge) (e : Edge)
    (h : ∃ ge ∈ ls, e.dst = ge.src ∧ e.src = ge.dst) :
    ∃ ge ∈ markDual ls e,
      ge.dual = true ∧ e.dst = ge.src ∧ e.src = ge.dst := by
  induction ls with
  | nil => simp at h
  | cons ge rest ih =>
    unfold markDual
    by_cases hh : e.dst = ge.src ∧ e.src = ge.dst
    · rw [if_pos hh]
      exact ⟨{ ge with dual := true }, List.mem_cons_self _ _,
        rfl, hh.1, hh.2⟩
    · rw [if_neg hh]
      obtain ⟨ge2, hmem, hprop⟩ := h
      rcases List.mem_cons.mp hmem with rfl | hmem2
      · exact absurd hprop hh
      · obtain ⟨ge3, hmem3, hd⟩ := ih ⟨ge2, hmem2, hprop⟩
        exact ⟨ge3, List.mem_cons_of_mem _ hmem3, hd⟩

/-- C10: `RenderHostmaps` is deterministic — for fixed host map contents
(Hosts, Indexes, Relays, each up to Go map iteration order) two
invocations produce identical output strings — because host addresses are
sorted ascending, index keys are sorted in descending numeric order, and
cross-node edges are sorted by endpoint name; and a cross-node edge whose
reverse was already collected is collapsed into that edge as a single
bidirectional (dual) edge instead of being added, while an edge with no
reverse is appended. -/
theorem renderHostmaps_deterministic :
    (∀ (mermaid : Bool) (l1 l2 : List IfaceM),
        List.Forall₂ IfaceEquiv l1 l2 →
        RenderHostmaps mermaid l1 = RenderHostmaps mermaid l2) ∧
    (∀ hosts : List (Nat × HostInfoM),
        (sortedHosts hosts).Sorted (· ≤ ·)) ∧
    (∀ idxs : List (Nat × HostInfoM),
        (sortedIndexes idxs).Sorted (fun a b : Nat => b ≤ a)) ∧
    (∀ (ls : List Edge) (e : Edge),
        (∃ ge ∈ ls, e.dst = ge.src ∧ e.src = ge.dst) →
        (addEdge ls e).length = ls.length ∧
        ∃ ge ∈ addEdge ls e,
          ge.dual = true ∧ e.dst = ge.src ∧ e.src = ge.dst) ∧
    (∀ (ls : List Edge) (e : Edge),
        (¬∃ ge ∈ ls, e.dst = ge.src ∧ e.src = ge.dst) →
        addEdge ls e = ls ++ [e]) := by
  refine ⟨?_, ?_, ?_, ?_, ?_⟩
  · intro mermaid l1 l2 h
    unfold RenderHostmaps
    simp only [foldl_renderStep_congr mermaid l1 l2 h]
  · intro hosts
    haveI : IsTotal Nat (· ≤ ·) := ⟨Nat.le_total⟩
    haveI : IsTrans Nat (· ≤ ·) := ⟨fun _ _ _ => Nat.le_trans⟩
    exact List.sorted_insertionSort _ _
  · intro idxs
    haveI : IsTotal Nat (fun a b : Nat => b ≤ a) :=
      ⟨fun a b => Nat.le_total b a⟩
    haveI : IsTrans Nat (fun a b : Nat => b ≤ a) :=
      ⟨fun _ _ _ h1 h2 => Nat.le_trans h2 h1⟩
    exact List.sorted_insertionSort _ _
  · intro ls e h
    have hany : ls.any (fun ge => decide (e.dst = ge.src ∧ e.src = ge.dst)) =
        true := by
      obtain ⟨ge, hmem, hprop⟩ := h
      exact List.any_eq_true.mpr ⟨ge, hmem, decide_eq_true hprop⟩
    unfold addEdge
    rw [if_pos hany]
    exact ⟨markDual_length ls e, markDual_mem_dual ls e h⟩
  · intro ls e h
    have hany : ls.any (fun ge => decide (e.dst = ge.src ∧ e.src = ge.dst)) =
        false := by
      rw [List.any_eq_false]
      intro ge hmem
      simp only [decide_eq_true_eq]
      exact fun hprop => h ⟨ge, hmem, hprop⟩
    unfold addEdge
    rw [hany]
    simp

/-- Concrete host info record used by the C10 witness. -/
def sampleHostInfo : HostInfoM :=
  { localIndexId := 100, remoteValid := true, remoteStr := "9.9.9.9:4242",
    relayIps := [], relayForIdxs := [], certName := "peer",
    remoteIndexId := 200, vpnIpStr := "10.0.0.2" }

/-- Concrete interface state used by the C10 witness. -/
def sampleIfaceA : IfaceM :=
  { certName := "a", certVpnIp := "10.0.0.1",
    hostMap :=
      { Hosts := [(1, sampleHostInfo), (2, sampleHostInfo)],
        Indexes := [(5, sampleHostInfo), (6, sampleHostInfo)],
        Relays := [] } }

/-- The same interface state with both maps in the opposite iteration
order. -/
def sampleIfaceB : IfaceM :=
  { certName := "a", certVpnIp := "10.0.0.1",
    hostMap :=
      { Hosts := [(2, sampleHostInfo), (1, sampleHostInfo)],
        Indexes := [(6, sampleHostInfo), (5, sampleHostInfo)],
        Relays := [] } }

/-- Witness for C10 at a concrete pair of identically-populated host maps
visited in different iteration orders. -/
theorem renderHostmaps_deterministic_witness :
    RenderHostmaps false [sampleIfaceA] = RenderHostmaps false [sampleIfaceB] :=
  renderHostmaps_deterministic.1 false [sampleIfaceA] [sampleIfaceB]
    (List.Forall₂.cons
      ⟨rfl, rfl,
       ⟨List.Perm.swap (2, sampleHostInfo) (1, sampleHostInfo) [],
        by decide⟩,
       ⟨List.Perm.swap (6, sampleHostInfo) (5, sampleHostInfo) [],
        by decide⟩,
       ⟨List.Perm.refl [], by decide⟩⟩
      List.Forall₂.nil)

end Render

end Nebula
